import Mathlib

/-!
Verification of the traversability estimation core.

A shallow embedding of the traversability estimation engine declared in
`TraversabilityEstimation.hpp`.  The repository ships only the class
declaration; every operation below is therefore modelled from the
specification document, faithful to its words.  Cell values are rationals,
with `none` standing for the "unknown" (NaN) sentinel.
-/

namespace TraversabilityEstimation

/-- A cell index of the raster, as a pair of integers. -/
abbrev Cell := ℤ × ℤ

/-- One named layer of a grid: a mapping from cell index to a value,
`none` meaning the unknown sentinel. -/
abbrev Layer := Cell → Option ℚ

/-- A 2D geometric position, in the frame of the grid. -/
abbrev Pos := ℚ × ℚ

/-- Modelled from the spec: a Grid is a regular 2D raster with a resolution,
a size `(rows, cols)`, a geometric origin (here the lower-left corner,
`(ox, oy)`), and per-cell scalar values; here a single relevant layer is
carried, unknown cells being `none`. -/
structure GMap where
  rows : ℕ
  cols : ℕ
  res : ℚ
  ox : ℚ
  oy : ℚ
  layer : Cell → Option ℚ

/-- A cell index lies within the index bounds of the grid. -/
def inGrid (g : GMap) (c : Cell) : Prop :=
  0 ≤ c.1 ∧ c.1 < (g.rows : ℤ) ∧ 0 ≤ c.2 ∧ c.2 < (g.cols : ℤ)

instance (g : GMap) (c : Cell) : Decidable (inGrid g c) := by
  unfold inGrid; infer_instance

/-- The layer value at a cell index; out-of-bounds indices are unknown. -/
def atIndex (g : GMap) (c : Cell) : Option ℚ :=
  if inGrid g c then g.layer c else none

/-- The geometric center of the cell with index `c`. -/
def cellCenter (g : GMap) (c : Cell) : Pos :=
  (g.ox + g.res * ((c.1 : ℚ) + 1/2), g.oy + g.res * ((c.2 : ℚ) + 1/2))

/-- Geometric-to-index conversion: the index of the cell containing a
position (equivalently, the cell whose center is nearest the position). -/
def posToIndex (g : GMap) (p : Pos) : Cell :=
  (⌊(p.1 - g.ox) / g.res⌋, ⌊(p.2 - g.oy) / g.res⌋)

/-- Nearest-cell sampling of the layer of the grid at a geometric position;
positions outside the bounds of the grid resolve to unknown. -/
def atPosition (g : GMap) (p : Pos) : Option ℚ :=
  atIndex g (posToIndex g p)

/-- A position lies within the geometric bounds of the grid. -/
def inRect (g : GMap) (p : Pos) : Prop :=
  g.ox ≤ p.1 ∧ p.1 < g.ox + g.res * (g.rows : ℚ) ∧
  g.oy ≤ p.2 ∧ p.2 < g.oy + g.res * (g.cols : ℚ)

instance (g : GMap) (p : Pos) : Decidable (inRect g p) := by
  unfold inRect; infer_instance

/-! ## Filter pipeline combination rule -/

/-- The known (non-sentinel) values among a list of per-cell layer values. -/
def knownVals (vals : List (Option ℚ)) : List ℚ :=
  vals.filterMap id

/-- Minimum of `a` and the elements of a list. -/
def listMin (a : ℚ) : List ℚ → ℚ
  | [] => a
  | b :: l => listMin (min a b) l

/-- Modelled from the spec (the body of `updateFilters` is not in the
repository): the combination rule for one cell — the elementwise minimum
across the known values of the contributing risk layers, or the configured
default traversability constant when all contributing layers are unknown. -/
def combineCell (vals : List (Option ℚ)) (traversabilityDefault : ℚ) : ℚ :=
  match knownVals vals with
  | [] => traversabilityDefault
  | v :: vs => listMin v vs

/-- Modelled from the spec (the body of `updateFilters` is not in the
repository): the composite traversability layer produced by the filter
pipeline, obtained by applying the combination rule at every cell. -/
def updateFilters (layers : List Layer) (traversabilityDefault : ℚ) :
    Cell → ℚ :=
  fun c => combineCell (layers.map (fun L => L c)) traversabilityDefault

/-! ## Polygon aggregation -/

/-- Modelled from the spec: a polygon is an ordered sequence of 2D points
in the frame of the grid, together with its point-in-polygon containment test
(the test is external; ties at the boundary are resolved by the own
conventions of the containment test). -/
structure Polygon where
  vertices : List Pos
  contains : Pos → Bool

/-- Modelled from the spec: the polygon centroid, taken as the vertex
average. -/
def polyCentroid (poly : Polygon) : Pos :=
  match poly.vertices with
  | [] => (0, 0)
  | v :: vs =>
    let n : ℚ := (v :: vs).length
    (((v :: vs).map Prod.fst).sum / n, ((v :: vs).map Prod.snd).sum / n)

/-- The grid cells whose centers lie inside the polygon, enumerated in
row-major order. -/
def insideCells (g : GMap) (poly : Polygon) : List Cell :=
  (List.range g.rows).flatMap (fun (i : ℕ) =>
    (List.range g.cols).filterMap (fun (j : ℕ) =>
      if poly.contains (cellCenter g ((i : ℤ), (j : ℤ))) then
        some (((i : ℕ) : ℤ), ((j : ℕ) : ℤ))
      else none))

/-- Modelled from the spec (the body of `isTraversable` is not in the
repository): reduce the composite traversability layer over a polygon to a
pass/fail verdict and a mean score.  Cells whose centers fall inside the
polygon are enumerated; when none does, the single cell nearest the polygon
centroid is the fallback.  The score is the arithmetic mean over the known
enumerated cells, the configured default constant when all of them are
unknown or out of bounds; the verdict compares the score against the
configured threshold, except that a polygon entirely outside the bounds
of the grid is "not traversable" by explicit policy. -/
def isTraversable (g : GMap) (poly : Polygon)
    (threshold traversabilityDefault : ℚ) : Bool × ℚ :=
  if ((if (insideCells g poly).isEmpty then [posToIndex g (polyCentroid poly)]
      else insideCells g poly).filterMap (atIndex g)).isEmpty then
    if (insideCells g poly).isEmpty ∧ ¬ inGrid g (posToIndex g (polyCentroid poly)) then
      (false, traversabilityDefault)
    else
      (decide (threshold ≤ traversabilityDefault), traversabilityDefault)
  else
    let known := (if (insideCells g poly).isEmpty then [posToIndex g (polyCentroid poly)]
      else insideCells g poly).filterMap (atIndex g)
    (decide (threshold ≤ known.sum / (known.length : ℚ)),
      known.sum / (known.length : ℚ))

/-! ## Inclination check -/

/-- The squared planar distance between two positions. -/
def planarDistSq (s e : Pos) : ℚ :=
  (e.1 - s.1) ^ 2 + (e.2 - s.2) ^ 2

/-- Modelled from the spec (the body of `checkInclination` is not in the
repository): the straight-line inclination check between two positions.
Coincident points (planar distance zero) are trivially feasible; an
endpoint resolving to an unknown elevation cell is conservatively not
feasible; otherwise the path is feasible when the inclination angle
`atan2(|elevation delta|, planar distance)` does not exceed the configured
maximum, stated equivalently on squares with `maxTan` the tangent of the
configured maximum inclination. -/
def checkInclination (g : GMap) (maxTan : ℚ) (s e : Pos) : Bool :=
  if planarDistSq s e = 0 then true
  else
    match atPosition g s, atPosition g e with
    | some h1, some h2 =>
      decide ((h2 - h1) ^ 2 ≤ maxTan ^ 2 * planarDistSq s e)
    | _, _ => false

/-! ## Engine state and service callback -/

/-- Modelled from the spec: the owned state of the engine — the most recently
received elevation map and the most recently computed traversability map. -/
structure EngineState where
  elevationMap : GMap
  traversabilityMap : GMap

/-- Modelled from the spec (the body of `computeTraversability` is not in
the repository): one computation cycle runs the filter pipeline on the
stored elevation map and replaces the traversability map with the fresh
result; the source elevation map is not mutated. -/
def computeTraversability (pipeline : GMap → GMap) (s : EngineState) :
    EngineState :=
  { s with traversabilityMap := pipeline s.elevationMap }

/-- A CheckFootprintPath service request: the two endpoints of the
footprint path. -/
structure FootprintPathRequest where
  start : Pos
  stop : Pos

/-- A CheckFootprintPath service response: the traversability verdict for
the footprint path. -/
structure FootprintPathResponse where
  isSafe : Bool

/-- Modelled from the spec (the body of `checkFootprintPath` is not in the
repository): the service callback evaluates the path and stores the verdict
in the response; the boolean it returns reports only that the service call
was handled, following the doc comment "return true if successful". -/
def checkFootprintPath (g : GMap) (maxTan : ℚ) (req : FootprintPathRequest) :
    Bool × FootprintPathResponse :=
  let verdict := checkInclination g maxTan req.start req.stop
  (true, { isSafe := verdict })

/-! ## Concrete fixtures used to exercise the definitions -/

/-- A 2×2 unit-resolution grid whose lower-left cell has traversability
`1/2` and all other cells `1`. -/
def gHalf : GMap where
  rows := 2
  cols := 2
  res := 1
  ox := 0
  oy := 0
  layer := fun c => if c = (0, 0) then some (1/2) else some 1

/-- A 3×3 unit-resolution grid with a wholly unknown layer. -/
def gUnknown : GMap where
  rows := 3
  cols := 3
  res := 1
  ox := 0
  oy := 0
  layer := fun _ => none

/-- A 3×3 unit-resolution elevation grid, flat at height `0` except for
height `2` at cell `(2, 0)`. -/
def gRamp : GMap where
  rows := 3
  cols := 3
  res := 1
  ox := 0
  oy := 0
  layer := fun c => some (if c = (2, 0) then 2 else 0)

/-- The axis-aligned square polygon `[0, 2] × [0, 2]`, covering `gHalf`. -/
def polySquare : Polygon where
  vertices := [(0, 0), (2, 0), (2, 2), (0, 2)]
  contains := fun p => decide (0 ≤ p.1 ∧ p.1 ≤ 2 ∧ 0 ≤ p.2 ∧ p.2 ≤ 2)

/-- The axis-aligned square polygon `[-3, -1] × [-3, -1]`, lying entirely
outside `gHalf`. -/
def polyFar : Polygon where
  vertices := [(-3, -3), (-1, -3), (-1, -1), (-3, -1)]
  contains := fun p => decide (-3 ≤ p.1 ∧ p.1 ≤ -1 ∧ -3 ≤ p.2 ∧ p.2 ≤ -1)

/-- A degenerate single-point polygon at `(1/2, 1/2)`, containing no cell
center. -/
def polyPoint : Polygon where
  vertices := [(1/2, 1/2)]
  contains := fun _ => false

end TraversabilityEstimation

namespace TraversabilityEstimation

/-! ## Helper lemmas -/

theorem listMin_mem : ∀ (l : List ℚ) (a : ℚ), listMin a l ∈ a :: l := by
  intro l
  induction l with
  | nil => intro a; simp [listMin]
  | cons b l ih =>
    intro a
    have h := ih (min a b)
    rcases List.mem_cons.mp h with h0 | h0
    · rcases min_choice a b with hm | hm
      · exact List.mem_cons.mpr (Or.inl (h0.trans hm))
      · simp [listMin, h0.trans hm]
    · simp [listMin, List.mem_cons.mpr (Or.inr h0)]

theorem listMin_le : ∀ (l : List ℚ) (a : ℚ), ∀ v ∈ a :: l, listMin a l ≤ v := by
  intro l
  induction l with
  | nil => intro a v hv; simp at hv; simp [listMin, hv]
  | cons b l ih =>
    intro a v hv
    show listMin (min a b) l ≤ v
    rcases List.mem_cons.mp hv with h0 | h0
    · calc listMin (min a b) l ≤ min a b := ih (min a b) _ (List.mem_cons_self _ _)
        _ ≤ a := min_le_left a b
        _ = v := h0.symm
    · rcases List.mem_cons.mp h0 with h1 | h1
      · calc listMin (min a b) l ≤ min a b := ih (min a b) _ (List.mem_cons_self _ _)
          _ ≤ b := min_le_right a b
          _ = v := h1.symm
      · exact ih (min a b) v (List.mem_cons.mpr (Or.inr h1))

theorem combineCell_mem (vals : List (Option ℚ)) (d : ℚ)
    (h : knownVals vals ≠ []) : combineCell vals d ∈ knownVals vals := by
  unfold combineCell
  rcases hk : knownVals vals with _ | ⟨v, vs⟩
  · exact absurd hk h
  · exact listMin_mem vs v

theorem combineCell_le (vals : List (Option ℚ)) (d : ℚ) :
    ∀ v ∈ knownVals vals, combineCell vals d ≤ v := by
  unfold combineCell
  rcases hk : knownVals vals with _ | ⟨v, vs⟩
  · intro v hv; simp at hv
  · exact listMin_le vs v

theorem combineCell_default (vals : List (Option ℚ)) (d : ℚ)
    (h : knownVals vals = []) : combineCell vals d = d := by
  unfold combineCell
  rw [h]

theorem mem_insideCells (g : GMap) (poly : Polygon) (c : Cell) :
    c ∈ insideCells g poly ↔
      inGrid g c ∧ poly.contains (cellCenter g c) = true := by
  unfold insideCells
  rw [List.mem_flatMap]
  constructor
  · rintro ⟨i, hi, hmem⟩
    rw [List.mem_range] at hi
    rw [List.mem_filterMap] at hmem
    obtain ⟨j, hj, hij⟩ := hmem
    rw [List.mem_range] at hj
    by_cases hcont : poly.contains (cellCenter g ((i : ℤ), (j : ℤ))) = true
    · rw [if_pos hcont] at hij
      obtain rfl := Option.some.inj hij
      exact ⟨⟨by omega, by omega, by omega, by omega⟩, hcont⟩
    · rw [if_neg hcont] at hij
      cases hij
  · rintro ⟨⟨h0, h1, h2, h3⟩, hc⟩
    refine ⟨c.1.toNat, ?_, ?_⟩
    · rw [List.mem_range]; omega
    · rw [List.mem_filterMap]
      refine ⟨c.2.toNat, ?_, ?_⟩
      · rw [List.mem_range]; omega
      · have ec : (((c.1.toNat : ℤ)), ((c.2.toNat : ℤ))) = c := by
          rw [Int.toNat_of_nonneg h0, Int.toNat_of_nonneg h2]
        rw [ec, if_pos hc]

theorem inRect_cellCenter (g : GMap) (c : Cell) (hres : 0 < g.res)
    (h : inGrid g c) : inRect g (cellCenter g c) := by
  obtain ⟨h0, h1, h2, h3⟩ := h
  have q0 : (0 : ℚ) ≤ (c.1 : ℚ) := by exact_mod_cast h0
  have q1 : (c.1 : ℚ) + 1 ≤ (g.rows : ℚ) := by exact_mod_cast Int.add_one_le_iff.mpr h1
  have q2 : (0 : ℚ) ≤ (c.2 : ℚ) := by exact_mod_cast h2
  have q3 : (c.2 : ℚ) + 1 ≤ (g.cols : ℚ) := by exact_mod_cast Int.add_one_le_iff.mpr h3
  refine ⟨?_, ?_, ?_, ?_⟩ <;> simp only [cellCenter] <;> nlinarith

theorem inGrid_posToIndex_iff (g : GMap) (p : Pos) (hres : 0 < g.res) :
    inGrid g (posToIndex g p) ↔ inRect g p := by
  unfold inGrid posToIndex inRect
  simp only
  rw [show ((0 : ℤ) ≤ ⌊(p.1 - g.ox) / g.res⌋ ↔ ((0 : ℤ) : ℚ) ≤ (p.1 - g.ox) / g.res)
      from Int.le_floor,
    show (⌊(p.1 - g.ox) / g.res⌋ < (g.rows : ℤ) ↔ (p.1 - g.ox) / g.res < ((g.rows : ℤ) : ℚ))
      from Int.floor_lt,
    show ((0 : ℤ) ≤ ⌊(p.2 - g.oy) / g.res⌋ ↔ ((0 : ℤ) : ℚ) ≤ (p.2 - g.oy) / g.res)
      from Int.le_floor,
    show (⌊(p.2 - g.oy) / g.res⌋ < (g.cols : ℤ) ↔ (p.2 - g.oy) / g.res < ((g.cols : ℤ) : ℚ))
      from Int.floor_lt]
  push_cast
  rw [le_div_iff₀ hres, div_lt_iff₀ hres, le_div_iff₀ hres, div_lt_iff₀ hres]
  constructor
  · rintro ⟨a, b, cc, dd⟩
    refine ⟨by linarith, by nlinarith, by linarith, by nlinarith⟩
  · rintro ⟨a, b, cc, dd⟩
    refine ⟨by linarith, by nlinarith, by linarith, by nlinarith⟩

/-! ## Claim theorems -/

/-- Claim C1: for every input elevation grid, the composite traversability
layer produced by the filter pipeline equals, at each cell where at least
one contributing risk layer is known, the elementwise minimum of the
known values of the contributing risk layers at that cell (it is one of them and
is below all of them); and every cell whose contributing layers are all
unknown is assigned the configured default traversability constant, so
every cell has a defined value. -/
theorem updateFilters_min_combination (layers : List Layer) (d : ℚ) (c : Cell) :
    (knownVals (layers.map (fun L => L c)) ≠ [] →
      updateFilters layers d c ∈ knownVals (layers.map (fun L => L c)) ∧
      ∀ v ∈ knownVals (layers.map (fun L => L c)), updateFilters layers d c ≤ v) ∧
    (knownVals (layers.map (fun L => L c)) = [] → updateFilters layers d c = d) := by
  refine ⟨fun h => ⟨?_, ?_⟩, fun h => ?_⟩
  · exact combineCell_mem _ d h
  · exact combineCell_le _ d
  · exact combineCell_default _ d h

/-- Witness for C1: a concrete cell with layers `1/2`, unknown, `3/4`
combines to a known minimum, and a cell with all layers unknown gets the
default `2/5`. -/
theorem updateFilters_min_combination_witness :
    (updateFilters [fun _ => some (1/2), fun _ => none, fun _ => some (3/4)] 0 (0, 0) ∈
        knownVals ([fun _ => some (1/2), fun _ => none, fun _ => some (3/4)].map
          (fun L : Layer => L (0, 0))) ∧
      ∀ v ∈ knownVals ([fun _ => some (1/2), fun _ => none, fun _ => some (3/4)].map
          (fun L : Layer => L (0, 0))),
        updateFilters [fun _ => some (1/2), fun _ => none, fun _ => some (3/4)] 0 (0, 0) ≤ v) ∧
    updateFilters [fun _ => none, fun _ => none] (2/5) (0, 0) = 2/5 :=
  ⟨(updateFilters_min_combination
      [fun _ => some (1/2), fun _ => none, fun _ => some (3/4)] 0 (0, 0)).1
      (by simp [knownVals]),
   (updateFilters_min_combination [fun _ => none, fun _ => none] (2/5) (0, 0)).2
      (by simp [knownVals])⟩

/-- Claim C2: for every cell of every traversability grid produced by the
pipeline, provided the configured default constant and all contributing
layer values lie in `[0, 1]`, the composite traversability value lies in
`[0, 1]` and never exceeds the minimum of its contributing per-stage layer
values at that cell. -/
theorem updateFilters_range_invariant (layers : List Layer) (d : ℚ) (c : Cell)
    (hd0 : 0 ≤ d) (hd1 : d ≤ 1)
    (hv : ∀ v ∈ knownVals (layers.map (fun L => L c)), 0 ≤ v ∧ v ≤ 1) :
    (0 ≤ updateFilters layers d c ∧ updateFilters layers d c ≤ 1) ∧
    ∀ v ∈ knownVals (layers.map (fun L => L c)), updateFilters layers d c ≤ v := by
  refine ⟨?_, combineCell_le _ d⟩
  rcases hk : knownVals (layers.map (fun L => L c)) with _ | ⟨v, vs⟩
  · have h := combineCell_default (layers.map (fun L => L c)) d hk
    unfold updateFilters
    rw [h]
    exact ⟨hd0, hd1⟩
  · have hmem : updateFilters layers d c ∈ knownVals (layers.map (fun L => L c)) :=
      combineCell_mem _ d (by rw [hk]; simp)
    exact ⟨(hv _ hmem).1, (hv _ hmem).2⟩

/-- Witness for C2: a concrete cell with layers `1/2`, unknown, `3/4` and
default `2/5` obeys the range bounds and the minimum bound. -/
theorem updateFilters_range_invariant_witness :
    (0 ≤ updateFilters [fun _ => some (1/2), fun _ => none, fun _ => some (3/4)] (2/5) (0, 0) ∧
      updateFilters [fun _ => some (1/2), fun _ => none, fun _ => some (3/4)] (2/5) (0, 0) ≤ 1) ∧
    ∀ v ∈ knownVals ([fun _ => some (1/2), fun _ => none, fun _ => some (3/4)].map
        (fun L : Layer => L (0, 0))),
      updateFilters [fun _ => some (1/2), fun _ => none, fun _ => some (3/4)] (2/5) (0, 0) ≤ v :=
  updateFilters_range_invariant
    [fun _ => some (1/2), fun _ => none, fun _ => some (3/4)] (2/5) (0, 0)
    (by norm_num) (by norm_num)
    (by intro v hv; simp [knownVals] at hv; rcases hv with h | h <;> rw [h] <;> norm_num)

/-- Claim C3: for every polygon with at least one grid-cell center inside
it, the aggregation enumerates exactly the cells whose centers lie inside
the polygon, returns as score the arithmetic mean of their known composite
values (excluding unknown cells from the mean when known ones exist,
substituting the configured default constant only when all enumerated
cells are unknown or out of bounds), and returns true exactly when that
score reaches the configured pass threshold. -/
theorem isTraversable_mean_spec (g : GMap) (poly : Polygon) (th d : ℚ)
    (hne : insideCells g poly ≠ []) :
    (∀ c : Cell, c ∈ insideCells g poly ↔
        inGrid g c ∧ poly.contains (cellCenter g c) = true) ∧
    ((insideCells g poly).filterMap (atIndex g) = [] →
      isTraversable g poly th d = (decide (th ≤ d), d)) ∧
    (∀ v vs, (insideCells g poly).filterMap (atIndex g) = v :: vs →
      isTraversable g poly th d =
        (decide (th ≤ (v :: vs).sum / (((v :: vs).length : ℕ) : ℚ)),
          (v :: vs).sum / (((v :: vs).length : ℕ) : ℚ))) := by
  have hisE : (insideCells g poly).isEmpty = false := by
    simpa [List.isEmpty_iff] using hne
  refine ⟨mem_insideCells g poly, fun hk => ?_, fun v vs hk => ?_⟩
  · unfold isTraversable
    rw [hisE]
    simp only [Bool.false_eq_true, if_false]
    rw [hk]
    simp [hisE]
  · unfold isTraversable
    rw [hisE]
    simp only [Bool.false_eq_true, if_false]
    rw [hk]
    simp

/-- Witness for C3: on the 2×2 grid `gHalf` with the covering square
polygon, the enumerated known values are `[1/2, 1, 1, 1]` and the verdict
compares the threshold `1/2` against the mean of that list. -/
theorem isTraversable_mean_spec_witness :
    isTraversable gHalf polySquare (1/2) (1/4) =
      (decide ((1/2 : ℚ) ≤
          ((1/2 : ℚ) :: [1, 1, 1]).sum / ((((1/2 : ℚ) :: [1, 1, 1]).length : ℕ) : ℚ)),
        ((1/2 : ℚ) :: [1, 1, 1]).sum / ((((1/2 : ℚ) :: [1, 1, 1]).length : ℕ) : ℚ)) :=
  (isTraversable_mean_spec gHalf polySquare (1/2) (1/4)
      (by
        norm_num [insideCells, cellCenter, gHalf, polySquare, List.range_succ,
          List.filterMap_cons]
        exact List.cons_ne_nil _ _)).2.2 (1/2) [1, 1, 1]
    (by norm_num [insideCells, cellCenter, gHalf, polySquare, List.range_succ,
      List.filterMap_cons, atIndex, inGrid])

/-- Claim C4: a polygon lying entirely outside the geometric bounds of the
grid (its containment test holds only outside the rectangle of the grid and its
centroid falls outside as well) yields "not traversable" with score equal
to the configured default constant — a policy result, not an error. -/
theorem isTraversable_outside_policy (g : GMap) (poly : Polygon) (th d : ℚ)
    (hres : 0 < g.res)
    (hout : ∀ p : Pos, poly.contains p = true → ¬ inRect g p)
    (hcent : ¬ inRect g (polyCentroid poly)) :
    isTraversable g poly th d = (false, d) := by
  have hempty : insideCells g poly = [] := by
    rw [List.eq_nil_iff_forall_not_mem]
    intro c hc
    rw [mem_insideCells] at hc
    exact hout _ hc.2 (inRect_cellCenter g c hres hc.1)
  have hidx : ¬ inGrid g (posToIndex g (polyCentroid poly)) := fun h =>
    hcent ((inGrid_posToIndex_iff g _ hres).mp h)
  have hnone : atIndex g (posToIndex g (polyCentroid poly)) = none := by
    unfold atIndex
    rw [if_neg hidx]
  unfold isTraversable
  rw [hempty]
  simp [hnone, hidx, List.filterMap_cons]

/-- Witness for C4: the far square polygon lies entirely outside `gHalf`,
and the query returns `(false, 1/4)` with the default `1/4`. -/
theorem isTraversable_outside_policy_witness :
    isTraversable gHalf polyFar (1/2) (1/4) = (false, 1/4) :=
  isTraversable_outside_policy gHalf polyFar (1/2) (1/4)
    (by norm_num [gHalf])
    (by
      intro p hp
      simp only [polyFar, decide_eq_true_eq] at hp
      rintro ⟨hr1, hr2, hr3, hr4⟩
      simp only [gHalf] at hr1 hr2 hr3 hr4
      have : p.1 ≤ -1 := hp.2.1
      linarith)
    (by norm_num [polyCentroid, polyFar, inRect, gHalf])

/-- Claim C5: for a degenerate polygon containing no grid-cell center, the
aggregation falls back to the single cell nearest the polygon centroid
and, when the value of that cell is known, uses the score of that cell — never the
configured default constant. -/
theorem isTraversable_centroid_fallback (g : GMap) (poly : Polygon)
    (th d v : ℚ)
    (hempty : insideCells g poly = [])
    (hval : atIndex g (posToIndex g (polyCentroid poly)) = some v) :
    isTraversable g poly th d = (decide (th ≤ v), v) := by
  unfold isTraversable
  rw [hempty]
  simp [hval, List.filterMap_cons]

/-- Witness for C5: the single-point polygon at `(1/2, 1/2)` contains no
cell center of `gHalf`; the fallback cell is `(0, 0)` with known value
`1/2`, and the score is `1/2`, not the default `9/10`. -/
theorem isTraversable_centroid_fallback_witness :
    isTraversable gHalf polyPoint (1/4) (9/10) = (decide ((1/4 : ℚ) ≤ 1/2), 1/2) :=
  isTraversable_centroid_fallback gHalf polyPoint (1/4) (9/10) (1/2)
    (by norm_num [insideCells, polyPoint, List.range_succ])
    (by norm_num [atIndex, inGrid, posToIndex, polyCentroid, polyPoint, gHalf])

/-- Claim C6: for endpoints at nonzero planar distance whose elevations
are known, the inclination check reports feasible exactly when the
inclination angle `atan2(|elevation delta|, planar distance)` is at most
the configured maximum inclination angle (whose tangent is the configured
`maxTan`); in particular a path steeper than the tangent bound is
infeasible, and the boundary angle itself is feasible (inclusive
comparison). -/
theorem checkInclination_angle_spec (g : GMap) (maxTan : ℚ) (s e : Pos)
    (e1 e2 : ℚ) (tmax : ℝ)
    (hd : planarDistSq s e ≠ 0)
    (h1 : atPosition g s = some e1) (h2 : atPosition g e = some e2)
    (ht0 : 0 ≤ tmax) (ht1 : tmax < Real.pi / 2)
    (htan : (maxTan : ℝ) = Real.tan tmax) :
    (checkInclination g maxTan s e = true ↔
      Real.arctan (|((e2 - e1 : ℚ) : ℝ)| /
        Real.sqrt ((planarDistSq s e : ℚ) : ℝ)) ≤ tmax) := by
  have hD0 : (0 : ℚ) ≤ planarDistSq s e := by
    unfold planarDistSq; positivity
  have hDpos : (0 : ℚ) < planarDistSq s e := lt_of_le_of_ne hD0 (Ne.symm hd)
  have hD0R : (0 : ℝ) ≤ ((planarDistSq s e : ℚ) : ℝ) := by exact_mod_cast hD0
  have hDposR : (0 : ℝ) < ((planarDistSq s e : ℚ) : ℝ) := by exact_mod_cast hDpos
  have hsqrt : (0 : ℝ) < Real.sqrt ((planarDistSq s e : ℚ) : ℝ) :=
    Real.sqrt_pos.mpr hDposR
  have htnn : (0 : ℝ) ≤ (maxTan : ℝ) := by
    rw [htan]
    exact Real.tan_nonneg_of_nonneg_of_le_pi_div_two ht0 ht1.le
  have hrhs0 : (0 : ℝ) ≤ (maxTan : ℝ) * Real.sqrt ((planarDistSq s e : ℚ) : ℝ) :=
    mul_nonneg htnn hsqrt.le
  have hbool : checkInclination g maxTan s e = true ↔
      (e2 - e1) ^ 2 ≤ maxTan ^ 2 * planarDistSq s e := by
    unfold checkInclination
    rw [if_neg hd, h1, h2]
    simp only [decide_eq_true_eq]
  have harctan_tan : Real.arctan (Real.tan tmax) = tmax :=
    Real.arctan_tan (by linarith [Real.pi_pos]) ht1
  rw [hbool]
  constructor
  · intro h
    rw [← harctan_tan]
    refine (Real.arctan_strictMono.le_iff_le).mpr ?_
    rw [← htan, div_le_iff₀ hsqrt]
    refine (pow_le_pow_iff_left₀ (abs_nonneg _) hrhs0 (two_ne_zero)).mp ?_
    rw [sq_abs, mul_pow, Real.sq_sqrt hD0R]
    exact_mod_cast h
  · intro h
    rw [← harctan_tan] at h
    have hle := (Real.arctan_strictMono.le_iff_le).mp h
    rw [← htan, div_le_iff₀ hsqrt] at hle
    have hsq := (pow_le_pow_iff_left₀ (abs_nonneg _) hrhs0 (two_ne_zero)).mpr hle
    rw [sq_abs, mul_pow, Real.sq_sqrt hD0R] at hsq
    exact_mod_cast hsq

/-- Witness for C6: on the ramp grid, the path from `(0, 0)` to `(2, 0)`
rises by 2 over planar distance 2, exactly the boundary angle for a
configured maximum of 45 degrees, and is feasible. -/
theorem checkInclination_angle_spec_witness :
    (checkInclination gRamp 1 ((0 : ℚ), (0 : ℚ)) ((2 : ℚ), (0 : ℚ)) = true ↔
      Real.arctan (|(((2 : ℚ) - (0 : ℚ) : ℚ) : ℝ)| /
        Real.sqrt ((planarDistSq ((0 : ℚ), (0 : ℚ)) ((2 : ℚ), (0 : ℚ)) : ℚ) : ℝ)) ≤
        Real.pi / 4) :=
  checkInclination_angle_spec gRamp 1 ((0 : ℚ), (0 : ℚ)) ((2 : ℚ), (0 : ℚ))
    0 2 (Real.pi / 4)
    (by norm_num [planarDistSq])
    (by norm_num [atPosition, atIndex, posToIndex, inGrid, gRamp, Prod.ext_iff])
    (by norm_num [atPosition, atIndex, posToIndex, inGrid, gRamp, Prod.ext_iff])
    (by positivity)
    (by linarith [Real.pi_pos])
    (by rw [Real.tan_pi_div_four]; norm_num)

/-- Claim C7: for every point and every grid, the inclination check with
coincident start and end points (planar distance zero) returns feasible,
regardless of the elevation values there. -/
theorem checkInclination_coincident (g : GMap) (maxTan : ℚ) (p : Pos) :
    checkInclination g maxTan p p = true := by
  simp [checkInclination, planarDistSq]

/-- Counterexample for C8 as stated: on a grid whose elevation layer is
wholly unknown, the inclination check at coincident points returns feasible
although both endpoints resolve to unknown elevation cells, so the claim
"every pair with an unknown endpoint is judged not feasible" fails. -/
theorem checkInclination_unknown_coincident_cex :
    atPosition gUnknown ((0 : ℚ), (0 : ℚ)) = none ∧
    checkInclination gUnknown 1 ((0 : ℚ), (0 : ℚ)) ((0 : ℚ), (0 : ℚ)) = true := by
  constructor
  · norm_num [atPosition, atIndex, posToIndex, inGrid, gUnknown]
  · norm_num [checkInclination, planarDistSq]

/-- Claim C8 (amended: restricted to endpoints at nonzero planar distance;
for coincident points the trivially-feasible rule takes precedence): for
every start/end pair at nonzero planar distance where either endpoint
resolves to an unknown elevation cell, the inclination check returns the
conservative decision "not feasible". -/
theorem checkInclination_unknown_conservative (g : GMap) (maxTan : ℚ)
    (s e : Pos) (hd : planarDistSq s e ≠ 0)
    (hu : atPosition g s = none ∨ atPosition g e = none) :
    checkInclination g maxTan s e = false := by
  unfold checkInclination
  rw [if_neg hd]
  rcases hu with h | h
  · rw [h]
  · rw [h]
    cases atPosition g s <;> rfl

/-- Witness for the amended C8: on the wholly unknown grid, the check from
`(0, 0)` to `(1, 0)` is not feasible. -/
theorem checkInclination_unknown_conservative_witness :
    checkInclination gUnknown 1 ((0 : ℚ), (0 : ℚ)) ((1 : ℚ), (0 : ℚ)) = false :=
  checkInclination_unknown_conservative gUnknown 1 _ _
    (by norm_num [planarDistSq])
    (Or.inl (by norm_num [atPosition, atIndex, posToIndex, inGrid, gUnknown]))

/-- Claim C9: running the filter pipeline in a computation cycle leaves the
source elevation grid unchanged; its only effect is the production of the
new traversability grid. -/
theorem computeTraversability_preserves_elevation (pipeline : GMap → GMap)
    (s : EngineState) :
    (computeTraversability pipeline s).elevationMap = s.elevationMap := rfl

/-- Claim C10: the boolean returned by the checkFootprintPath service
callback indicates only that the call was handled (it is always `true`);
the traversability verdict travels inside the response, and the callback
can return `true` even when the path is judged not traversable. -/
theorem checkFootprintPath_handled_flag :
    (∀ (g : GMap) (maxTan : ℚ) (req : FootprintPathRequest),
        (checkFootprintPath g maxTan req).1 = true) ∧
    ∃ (g : GMap) (maxTan : ℚ) (req : FootprintPathRequest),
        (checkFootprintPath g maxTan req).1 = true ∧
        ((checkFootprintPath g maxTan req).2).isSafe = false := by
  constructor
  · intro g maxTan req; rfl
  · refine ⟨gUnknown, 1, ⟨((0 : ℚ), (0 : ℚ)), ((1 : ℚ), (0 : ℚ))⟩, rfl, ?_⟩
    norm_num [checkFootprintPath, checkInclination, planarDistSq, atPosition,
      atIndex, posToIndex, inGrid, gUnknown]

end TraversabilityEstimation
